import Mathlib

/-!
Shallow embedding of `streamlit_inspector/__init__.py` (the `streamlit-inspector`
repository): Python string primitives used by the code, the formatting helpers
(`wrap_expander`, `shorten`, `_code_format`, `_prettify_value`,
`_split_format_docstring`, `_get_signature`, `KeyValueTable`) and the single
rendering routine `inspect`.

Python objects are modelled by the reflection data the code consumes: the
`dir` listing, per-attribute `getattr` results (which may raise), `repr`/`str`
strings, type names, docstrings and signature-introspection outcomes.  The two
external collaborators (the pygments `highlight` call and `validators.url`) are
fields of a `PyExt` record, since the spec declares them out of scope.
Machine-level effects (`st.write`) are modelled as appending to a page,
exceptions as `Except Unit`.
-/

/-! ### Python string primitives -/

/-- ASCII whitespace recognised by Python's `str.strip` family. -/
def pyIsSpace (c : Char) : Bool :=
  c == ' ' || c == '\t' || c == '\n' || c == '\r' || c == '\x0b' || c == '\x0c'

/-- Python `str.lstrip()` (no argument). -/
def pyLstrip (s : String) : String := String.mk (s.data.dropWhile pyIsSpace)

/-- Python `str.rstrip()` (no argument). -/
def pyRstrip (s : String) : String :=
  String.mk ((s.data.reverse.dropWhile pyIsSpace).reverse)

/-- Python `str.strip()` (no argument). -/
def pyStrip (s : String) : String := pyLstrip (pyRstrip s)

/-- Python slicing `s[:n]`. -/
def pyTake (s : String) (n : Nat) : String := String.mk (s.data.take n)

/-- Python `str.startswith`. -/
def pyStartsWith (s p : String) : Bool := p.data.isPrefixOf s.data

/-- Python `s.split(c)` for a one-character separator (used by `cleandoc`). -/
def splitOnChar (c : Char) : List Char → List (List Char)
  | [] => [[]]
  | x :: xs =>
    let r := splitOnChar c xs
    if x == c then [] :: r
    else
      match r with
      | [] => [[x]]
      | h :: t => (x :: h) :: t

/-- Finds the first occurrence of `pat` in a character list, returning the
text before and after it (used to model Python `str.partition`). -/
def splitFirst (pat : List Char) : List Char → Option (List Char × List Char)
  | [] => if pat.isEmpty then some ([], []) else none
  | c :: cs =>
    if pat.isPrefixOf (c :: cs) then some ([], (c :: cs).drop pat.length)
    else
      match splitFirst pat cs with
      | some (a, b) => some (c :: a, b)
      | none => none

/-- Python `s.partition(sep)` restricted to the first and third components
(the only ones the code uses); only called with the non-empty separator
`"\n\n"`. -/
def pyPartition (s sep : String) : String × String :=
  match splitFirst sep.data s.data with
  | some (a, b) => (String.mk a, String.mk b)
  | none => (s, "")

/-- Left-to-right, non-overlapping replacement scan underlying Python
`str.replace`; `fuel` only forces termination and is always instantiated with
the length of the scanned list. -/
def replaceAux (pat rep : List Char) : Nat → List Char → List Char
  | _, [] => []
  | 0, l => l
  | fuel + 1, c :: cs =>
    if pat.isPrefixOf (c :: cs) then
      rep ++ replaceAux pat rep fuel ((c :: cs).drop pat.length)
    else c :: replaceAux pat rep fuel cs

/-- Python `s.replace(pat, rep)` (all occurrences; for the empty pattern,
Python interleaves `rep` around every character). -/
def pyReplace (s pat rep : String) : String :=
  if pat.data.isEmpty then
    String.mk (rep.data ++ s.data.foldr (fun c acc => c :: (rep.data ++ acc)) [])
  else
    String.mk (replaceAux pat.data rep.data s.data.length s.data)

/-- Python `str.expandtabs()` scan with the default tab size 8: a tab pads to
the next multiple of 8, `\n` and `\r` reset the column. -/
def expandtabsGo : Nat → List Char → List Char
  | _, [] => []
  | col, c :: cs =>
    if c == '\t' then
      let pad := 8 - col % 8
      List.replicate pad ' ' ++ expandtabsGo (col + pad) cs
    else if c == '\n' || c == '\r' then c :: expandtabsGo 0 cs
    else c :: expandtabsGo (col + 1) cs

/-- Python `str.expandtabs()` with the default tab size. -/
def expandtabs (s : String) : String := String.mk (expandtabsGo 0 s.data)

/-- Minimum indentation of the non-blank lines (`none` models Python's
`sys.maxsize` sentinel), as computed by `inspect.cleandoc`. -/
def marginOf (lines : List String) : Option Nat :=
  lines.foldl
    (fun m line =>
      let content := (pyLstrip line).length
      if content ≠ 0 then
        let indent := line.length - content
        match m with
        | none => some indent
        | some mm => some (min mm indent)
      else m)
    none

/-- Python `inspect.cleandoc`: expand tabs, split into lines, lstrip the first
line, remove the common margin of the later lines, then drop trailing and
leading blank lines. -/
def cleandoc (doc : String) : String :=
  let lines := (splitOnChar '\n' (expandtabs doc).data).map String.mk
  let margin := marginOf lines.tail
  let lines :=
    match lines with
    | [] => []
    | a :: rest => pyLstrip a :: rest
  let lines :=
    match margin with
    | some mm =>
      (match lines with
       | [] => ([] : List String)
       | a :: rest => a :: rest.map (fun l : String => String.mk (l.data.drop mm)))
    | none => lines
  let lines := (lines.reverse.dropWhile (fun l : String => l.data.isEmpty)).reverse
  let lines := lines.dropWhile (fun l : String => l.data.isEmpty)
  String.mk (List.intercalate ['\n'] (lines.map String.data))

/-- Python `inspect.getdoc` applied to an object whose raw `__doc__` string is
`rawDoc` (`none` when absent or not a string): the found docstring is passed
through `cleandoc`. -/
def getdoc (rawDoc : Option String) : Option String := rawDoc.map cleandoc

/-! ### The external collaborators and the Python value model -/

/-- The two external library functions the module calls, out of scope per the
spec: `pygments.highlight(code, lexer, formatter)` and the truthiness of
`validators.url(s)`. -/
structure PyExt where
  highlight : String → String
  urlValid : String → Bool

/-- Outcome of `inspect.signature(obj)`: a signature string, or the
`ValueError` / `TypeError` it may raise. -/
inductive SigOutcome where
  | ok (s : String)
  | valueError
  | typeError
deriving DecidableEq

/-- Reflection data of a Python runtime value, as consumed by the code:
`str(value)`, `isinstance(value, str)`, `callable(value)`, `value is None`,
`type(value).__name__`, the `inspect.signature` outcome, the optional
`__name__` attribute, `inspect.isclass`, and the raw docstring found by
`inspect.getdoc` before cleaning.  For a `str` value, `strv` is the string
itself. -/
structure PyValue where
  strv : String
  isStr : Bool
  callable : Bool
  isNone : Bool
  typeName : String
  sigOutcome : SigOutcome
  dunderName : Option String
  isClass : Bool
  rawDoc : Option String
deriving DecidableEq

/-- Reflection data of the object handed to `inspect`: `dir(obj)`, the result
of `getattr(obj, a)` for each name (`Except.error` models a raised exception),
`repr(obj)`, `str(obj)`, `type(obj).__name__`, the `isclass` / `ismodule` /
`callable` tests on the object itself, and its raw docstring. -/
structure PyObj where
  dirList : List String
  getattrRes : String → Except Unit PyValue
  reprStr : String
  strSelf : String
  typeName : String
  isClass : Bool
  isModule : Bool
  selfCallable : Bool
  rawDoc : Option String

/-! ### The repository's helpers -/

/-- `wrap_expander` (lines 16-22): details/summary HTML expander (the stray
`<div>` before `</details>` is in the source). -/
def wrap_expander (summary details : String) (indent : Bool := false) : String :=
  let padding := if indent then "padding-left: 1.55rem;" else ""
  "<details><summary>" ++ summary ++ "</summary><div style=\"" ++ padding ++ "\">"
    ++ details ++ "<div></details>"

/-- `shorten` (lines 25-27): replace newlines by spaces, truncate to `length`
characters plus `"..."` when longer than `length`. -/
def shorten (s : String) (length : Nat := 300) : String :=
  let s := pyReplace s "\n" " "
  if s.length > length then pyTake s length ++ "..." else s

/-- `_code_format` (lines 89-91): `highlight(code, lexer, formatter).strip()`. -/
def _code_format (ext : PyExt) (code : String) : String := pyStrip (ext.highlight code)

/-- Lines 99-104 of `_prettify_value`: the quotation mark chosen for the
(shortened) string `s` — `"""` when `s` holds both quote kinds, `'` when it
holds `"`, plain `"` otherwise. -/
def quoteCharFor (s : String) : String :=
  if s.data.contains '"' && s.data.contains '\'' then "\"\"\""
  else if s.data.contains '"' then "'"
  else "\""

/-- Line 109 of `_prettify_value`: the HTML anchor substituted for a valid
URL — `href` carries the full string `value`, the link text the shortened
`s`. -/
def urlAnchor (url text : String) : String :=
  "<a href=\"" ++ url ++ "\">" ++ text ++ "</a>"

/-- `_prettify_value` (lines 94-114): shorten `str(value)`, choose a quote
character, and for strings either link valid URLs or quote-and-highlight;
non-strings are highlighted directly. -/
def _prettify_value (ext : PyExt) (value : PyValue) : String :=
  let s := shorten value.strv
  let quote_char := quoteCharFor s
  if value.isStr then
    if ext.urlValid value.strv then
      let new_s := _code_format ext (quote_char ++ s ++ quote_char)
      pyReplace new_s s (urlAnchor value.strv s)
    else
      _code_format ext (quote_char ++ s ++ quote_char)
  else
    _code_format ext s

/-- `_split_format_docstring` (lines 117-126): partition at the first `"\n\n"`,
then `cleandoc` and `strip` both parts. -/
def _split_format_docstring (doc : String) : String × String :=
  let p := pyPartition doc "\n\n"
  (pyStrip (cleandoc p.1), pyStrip (cleandoc p.2))

/-- `_get_signature` (lines 129-146): `str(signature(obj))` with `"(...)"` on
`ValueError` and `None` on `TypeError`; prefixed by `class` for classes and
`def` otherwise, using `__name__` when present. -/
def _get_signature (name : String) (obj : PyValue) : Option String :=
  match (match obj.sigOutcome with
         | SigOutcome.ok s => some s
         | SigOutcome.valueError => some "(...)"
         | SigOutcome.typeError => none) with
  | none => none
  | some sg =>
    let qualname := obj.dunderName.getD name
    let pfx := if obj.isClass then "class" else "def"
    some (pfx ++ " " ++ qualname ++ sg)

/-- `KeyValueTable.add_row` (lines 167-170): the `<tr>` HTML of one row. -/
def rowHtml (key value : String) : String :=
  "<tr><td align='right' style='white-space: nowrap;'>" ++ key
    ++ "</td><td>&nbsp;&nbsp;=&nbsp;&nbsp;</td><td align='left' style='text-overflow: ellipsis;'>"
    ++ value ++ "</td></tr>"

/-- The fixed text of `KeyValueTable.__str__` before the joined rows
(lines 180-194 of the f-string; `\x7b`/`\x7d` are the literal CSS braces). -/
def kvTableCss : String :=
  "\n<style>\n.keyvaluetable \x7b\n    word-break: break-all;\n\x7d\n.keyvaluetable tr, td \x7b\n    border: none !important;\n    padding: 0 !important;\n\x7d\n.keyvaluetable td \x7b\n    vertical-align: baseline;\n\x7d\n</style>\n<table class=\"keyvaluetable\" cellspacing=\"0\" cellpadding=\"0\">\n    "

/-- `KeyValueTable.__str__` (lines 175-196): empty string for an empty table,
otherwise the style/table HTML around the concatenated rows. -/
def kvTableStr (rows : List String) : String :=
  if rows.length = 0 then ""
  else kvTableCss ++ String.join rows ++ "\n</table>\n        "

/-! ### The `inspect` routine (lines 199-330) -/

/-- The placeholder `str` bound when `getattr` raises (line 275; the trailing
characters are the exact — mojibake — bytes of the source file). -/
def placeholderValue : PyValue :=
  { strv := "Couldn't parse this attribute's value ðŸ˜”"
    isStr := true
    callable := false
    isNone := false
    typeName := "str"
    sigOutcome := SigOutcome.typeError
    dunderName := none
    isClass := false
    rawDoc := none }

/-- Lines 272-275: `getattr(obj, attr)` with the bare `except` replacing a
raised exception by the placeholder string. -/
def attrValue (o : PyObj) (attr : String) : PyValue :=
  match o.getattrRes attr with
  | Except.ok v => v
  | Except.error _ => placeholderValue

/-- Line 280: the coloured `<span>` holding a value's type name. -/
def typeSpan (t : String) : String :=
  "<span style=\"color: #01a9aa\">" ++ t ++ "</span>"

/-- Lines 277-282: the key cell text — the attribute name, followed by
`": "` and the type span unless the value is `None` (empty `type_str`). -/
def rowKey (attr : String) (value : PyValue) : String :=
  let type_str := if value.isNone then "" else typeSpan value.typeName
  attr ++ (if type_str ≠ "" then ": " else "") ++ type_str

/-- Lines 270-284: the (name, value) pairs that reach `attr_table.add_row` —
names from `dir(obj)` not starting with `_` whose (placeholder-substituted)
value is not callable. -/
def attrTableItems (o : PyObj) : List (String × PyValue) :=
  o.dirList.filterMap (fun attr =>
    let value := attrValue o attr
    if !pyStartsWith attr "_" && !value.callable then some (attr, value) else none)

/-- Lines 270-284: the rendered rows of the attribute table. -/
def attrRows (ext : PyExt) (o : PyObj) : List String :=
  (attrTableItems o).map (fun p => rowHtml (rowKey p.1 p.2) (_prettify_value ext p.2))

/-- The `<span class="gray-text">` wrapper used in the object docstring
section (lines 229-233). -/
def grayClassSpan (s : String) : String :=
  "<span class=\"gray-text\">" ++ s ++ "</span>"

/-- The `<span style="color: #84858c">` wrapper used for method docstrings
(lines 303-306). -/
def grayStyleSpan (s : String) : String :=
  "<span style=\"color: #84858c\">" ++ s ++ "</span>"

/-- Lines 222-237: the title + docstring section of the object itself —
expander when the split docstring has both a first paragraph and a remainder,
plain summary when only a first paragraph, bare bold title otherwise. -/
def objDocSection (title : String) (doc? : Option String) : String :=
  match doc? with
  | some docstring =>
    let fp := _split_format_docstring docstring
    if fp.1 ≠ "" ∧ fp.2 ≠ "" then
      wrap_expander ("<b>" ++ title ++ ":</b> " ++ grayClassSpan fp.1) (grayClassSpan fp.2)
    else if fp.1 ≠ "" then "<b>" ++ title ++ ":</b> " ++ grayClassSpan fp.1
    else "<b>" ++ title ++ "</b>"
  | none => "<b>" ++ title ++ "</b>"

/-- Using an `Option String` where Python would use the value directly: `none`
(Python `None`) makes `value_text + ":"` / `highlight(value_text)` raise. -/
def forceStr : Option String → Except Unit String
  | none => Except.error ()
  | some s => Except.ok s

/-- Lines 292-317: one entry of the method list — the formatted signature with
the method's split docstring, wrapped in `<div>`.  Errors model the `TypeError`
raised downstream when `_get_signature` returned `None`. -/
def methodEntry (ext : PyExt) (name : String) (value : PyValue) : Except Unit String := do
  let sig? := _get_signature name value
  let value_text ←
    (match getdoc value.rawDoc with
     | some docstring =>
       let fp := _split_format_docstring docstring
       if fp.1 ≠ "" ∧ fp.2 ≠ "" then do
         let t ← forceStr sig?
         let t := _code_format ext (t ++ ":")
         let t := t ++ grayStyleSpan fp.1
         pure (wrap_expander t (grayStyleSpan fp.2) true)
       else if fp.1 ≠ "" then do
         let t ← forceStr sig?
         pure (_code_format ext (t ++ ":") ++ grayStyleSpan fp.1)
       else do
         let t ← forceStr sig?
         pure (_code_format ext t)
     | none => do
       let t ← forceStr sig?
       pure (_code_format ext t))
  pure ("<div>" ++ value_text ++ "</div>")

/-- Lines 289-317: the method loop — for each name in `dir(obj)` not starting
with `_`, `getattr` is called **without** a `try`/`except` (its exception
propagates), and callable values contribute a `methodEntry`. -/
def methodsTextGo (ext : PyExt) (o : PyObj) : List String → Except Unit String
  | [] => Except.ok ""
  | attr :: rest =>
    if pyStartsWith attr "_" then methodsTextGo ext o rest
    else
      match o.getattrRes attr with
      | Except.error e => Except.error e
      | Except.ok value =>
        if value.callable then do
          let entry ← methodEntry ext attr value
          let restText ← methodsTextGo ext o rest
          pure (entry ++ restText)
        else methodsTextGo ext o rest

/-- Lines 289-317: `methods_text` accumulated over `dir(obj)`. -/
def methodsText (ext : PyExt) (o : PyObj) : Except Unit String :=
  methodsTextGo ext o o.dirList

/-- The (name, value) pairs enumerated by the method loop (lines 290-292),
with the same unguarded `getattr` behaviour. -/
def methodItemsGo (o : PyObj) : List String → Except Unit (List (String × PyValue))
  | [] => Except.ok []
  | attr :: rest =>
    if pyStartsWith attr "_" then methodItemsGo o rest
    else
      match o.getattrRes attr with
      | Except.error e => Except.error e
      | Except.ok value =>
        if value.callable then do
          let restItems ← methodItemsGo o rest
          pure ((attr, value) :: restItems)
        else methodItemsGo o rest

/-- The method-list items over `dir(obj)`. -/
def methodItems (o : PyObj) : Except Unit (List (String × PyValue)) :=
  methodItemsGo o o.dirList

/-- Line 207: the section divider. -/
def divider : String := "<hr style=\"margin: 1rem -1rem\">"

/-- Line 210: the opening of the surrounding bordered `<div>`. -/
def borderOpen : String :=
  "<div style=\"border: 1px solid #d6d6d8; border-radius: 0.25rem; padding: 1rem; margin-bottom: 1rem;\">"

/-- Lines 215-219: `str(obj)` for classes / callables / modules, else
`type(obj).__name__`. -/
def titleOf (o : PyObj) : String :=
  if o.isClass || o.selfCallable || o.isModule then o.strSelf else o.typeName

/-- Lines 199-327: the HTML string `s` that `inspect` passes to `st.write`,
or the exception that escapes the method loop. -/
def inspectHtml (ext : PyExt) (o : PyObj) : Except Unit String :=
  let s := borderOpen
  let s := s ++ _code_format ext o.reprStr ++ divider
  let title := titleOf o
  let s := s ++ objDocSection title (getdoc o.rawDoc)
  let s := s ++ divider
  let attr_text := kvTableStr (attrRows ext o)
  match methodsText ext o with
  | Except.error e => Except.error e
  | Except.ok methods_text =>
    let s := s ++ attr_text
    let s := if attr_text ≠ "" ∧ methods_text ≠ "" then s ++ divider else s
    let s := s ++ methods_text
    let s := s ++ "</div>"
    Except.ok s

/-- `inspect(obj)` run against a page: the only `st` call inside `inspect` is
the final `st.write(s, unsafe_allow_html=True)` (line 330), modelled as
appending `s`; the function body ends there, so the Python return value is
`None` (here `Unit`).  A propagated exception leaves the page unchanged. -/
def inspectRun (ext : PyExt) (o : PyObj) (page : List String) :
    Except Unit Unit × List String :=
  match inspectHtml ext o with
  | Except.ok s => (Except.ok (), page ++ [s])
  | Except.error e => (Except.error e, page)

/-! ### Spec-side vocabulary and concrete test fixtures -/

/-- The spec's notion of a rendered fragment being a collapsible element:
it begins with the `<details>` tag. -/
def strBeginsWith (s p : String) : Prop := p.data <+: s.data

/-- A concrete external environment for evaluation: the identity highlighter
and a URL validator accepting exactly `"https://x.de"`. -/
def exampleExt : PyExt :=
  { highlight := fun s => s
    urlValid := fun s => s == "https://x.de" }

/-- A `str` value holding a valid URL. -/
def vUrl : PyValue :=
  { strv := "https://x.de", isStr := true, callable := false, isNone := false
    typeName := "str", sigOutcome := SigOutcome.typeError, dunderName := none
    isClass := false, rawDoc := none }

/-- A `str` value that is not a URL. -/
def vPlain : PyValue :=
  { strv := "hello", isStr := true, callable := false, isNone := false
    typeName := "str", sigOutcome := SigOutcome.typeError, dunderName := none
    isClass := false, rawDoc := none }

/-- A plain `int` value. -/
def vInt : PyValue :=
  { strv := "5", isStr := false, callable := false, isNone := false
    typeName := "int", sigOutcome := SigOutcome.typeError, dunderName := none
    isClass := false, rawDoc := none }

/-- A callable (function) value with a signature and no docstring. -/
def vFun : PyValue :=
  { strv := "<function run>", isStr := false, callable := true, isNone := false
    typeName := "function", sigOutcome := SigOutcome.ok "(x)", dunderName := some "run"
    isClass := false, rawDoc := none }

/-- The `None` value. -/
def vNone : PyValue :=
  { strv := "None", isStr := false, callable := false, isNone := true
    typeName := "NoneType", sigOutcome := SigOutcome.typeError, dunderName := none
    isClass := false, rawDoc := none }

/-- A class whose `signature` call raises `ValueError`. -/
def vSigVE : PyValue :=
  { strv := "<class Foo>", isStr := false, callable := true, isNone := false
    typeName := "type", sigOutcome := SigOutcome.valueError, dunderName := some "Foo"
    isClass := true, rawDoc := none }

/-- A callable method with a two-paragraph docstring. -/
def vDoc : PyValue :=
  { strv := "<function m>", isStr := false, callable := true, isNone := false
    typeName := "function", sigOutcome := SigOutcome.ok "(x)", dunderName := some "m"
    isClass := false, rawDoc := some "A\n\nB" }

/-- An object with one public attribute whose `getattr` raises. -/
def oBad : PyObj :=
  { dirList := ["boom"], getattrRes := fun _ => Except.error ()
    reprStr := "X", strSelf := "X", typeName := "T"
    isClass := false, isModule := false, selfCallable := false, rawDoc := none }

/-- An object with one public non-callable attribute (`size`) and one public
method (`run`). -/
def oGood : PyObj :=
  { dirList := ["run", "size"]
    getattrRes := fun a =>
      if a == "run" then Except.ok vFun
      else if a == "size" then Except.ok vInt
      else Except.error ()
    reprStr := "X", strSelf := "X", typeName := "T"
    isClass := false, isModule := false, selfCallable := false, rawDoc := none }

/-- An object with a single public attribute whose value is `None`. -/
def oNone : PyObj :=
  { dirList := ["field"], getattrRes := fun _ => Except.ok vNone
    reprStr := "X", strSelf := "X", typeName := "T"
    isClass := false, isModule := false, selfCallable := false, rawDoc := none }

/-- An object with no members and a docstring whose first paragraph is blank
(an all-space line before the first blank line). -/
def oDoc : PyObj :=
  { dirList := [], getattrRes := fun _ => Except.error ()
    reprStr := "X", strSelf := "X", typeName := "T"
    isClass := false, isModule := false, selfCallable := false
    rawDoc := some "\n   \n\nx" }

/-! ### Helper lemmas -/

/-- A non-empty string has non-empty character data. -/
theorem data_ne_nil_of_ne_empty (pat : String) (hp : pat ≠ "") : pat.data ≠ [] := by
  intro h
  exact hp (String.ext h)

/-- If the scanned list contains the (non-empty) pattern, the replacement
scan emits the replacement text somewhere in its output. -/
theorem replaceAux_surrounds (pat rep : List Char) (hp : pat ≠ []) :
    ∀ (a b : List Char) (fuel : Nat), (a ++ (pat ++ b)).length ≤ fuel →
      ∃ x y : List Char, replaceAux pat rep fuel (a ++ (pat ++ b)) = x ++ (rep ++ y) := by
  intro a
  induction a with
  | nil =>
    intro b fuel hf
    rw [List.nil_append] at *
    obtain ⟨p, ps, rfl⟩ : ∃ p ps, pat = p :: ps := by
      cases pat with
      | nil => exact absurd rfl hp
      | cons p ps => exact ⟨p, ps, rfl⟩
    cases fuel with
    | zero =>
      exfalso
      simp [List.length_append] at hf
    | succ f =>
      have hpre : (p :: ps).isPrefixOf ((p :: ps) ++ b) = true := by
        rw [List.isPrefixOf_iff_prefix]
        exact List.prefix_append _ _
      refine ⟨[], replaceAux (p :: ps) rep f (((p :: ps) ++ b).drop (p :: ps).length), ?_⟩
      show replaceAux (p :: ps) rep (f + 1) (p :: (ps ++ b)) = _
      simp only [replaceAux, List.cons_append] at hpre ⊢
      rw [hpre]
      simp
  | cons c a ih =>
    intro b fuel hf
    have hsh : ((c :: a) ++ (pat ++ b)) = c :: (a ++ (pat ++ b)) := rfl
    cases fuel with
    | zero =>
      exfalso
      rw [hsh] at hf
      simp at hf
    | succ f =>
      rw [hsh]
      by_cases hpre : pat.isPrefixOf (c :: (a ++ (pat ++ b))) = true
      · refine ⟨[], replaceAux pat rep f ((c :: (a ++ (pat ++ b))).drop pat.length), ?_⟩
        simp only [replaceAux]
        rw [hpre]
        simp
      · have hf' : (a ++ (pat ++ b)).length ≤ f := by
          rw [hsh] at hf
          simp only [List.length_cons] at hf
          omega
        obtain ⟨x, y, hxy⟩ := ih b f hf'
        refine ⟨c :: x, y, ?_⟩
        simp only [replaceAux]
        rw [Bool.not_eq_true] at hpre
        rw [hpre]
        simp [hxy]

/-- String-level version: if `s = l ++ pat ++ r` with `pat` non-empty, then
`pyReplace s pat rep` contains `rep` as a substring. -/
theorem pyReplace_surrounds (s pat rep l r : String) (hp : pat ≠ "")
    (hs : s = l ++ (pat ++ r)) :
    ∃ x y : String, pyReplace s pat rep = x ++ (rep ++ y) := by
  have hd : pat.data ≠ [] := data_ne_nil_of_ne_empty pat hp
  have hdata : s.data = l.data ++ (pat.data ++ r.data) := by
    rw [hs]
    simp [String.data_append]
  obtain ⟨x, y, hxy⟩ :=
    replaceAux_surrounds pat.data rep.data hd l.data r.data s.data.length
      (le_of_eq (congrArg List.length hdata).symm)
  refine ⟨String.mk x, String.mk y, ?_⟩
  have hne : pat.data.isEmpty = false := by
    cases hpd : pat.data with
    | nil => exact absurd hpd hd
    | cons u v => rfl
  unfold pyReplace
  rw [hne]
  show String.mk (replaceAux pat.data rep.data s.data.length s.data) = _
  rw [hdata] at hxy ⊢
  rw [hxy]
  rfl

set_option maxRecDepth 8192 in
/-- `KeyValueTable.__str__` returns the empty string exactly for an empty
table. -/
theorem kvTableStr_empty_iff (rows : List String) : kvTableStr rows = "" ↔ rows = [] := by
  constructor
  · intro h
    cases rows with
    | nil => rfl
    | cons rhd rtl =>
      exfalso
      unfold kvTableStr at h
      rw [if_neg (by simp)] at h
      have hl := congrArg String.length h
      rw [String.length_append, String.length_append] at hl
      have hc : 0 < kvTableCss.length := by decide
      have h0 : ("" : String).length = 0 := rfl
      rw [h0] at hl
      omega
  · rintro rfl
    rfl

/-- The success-path equation of `inspectHtml`: when the method loop does not
raise, the rendered page is the concatenation of the bordered-block opening,
the highlighted repr, the docstring section, the attribute table, the method
list and the closing tag, with dividers after the repr and the docstring and
one more between table and method list exactly when both are non-empty. -/
theorem inspectHtml_ok (ext : PyExt) (o : PyObj) (mt : String)
    (hm : methodsText ext o = Except.ok mt) :
    inspectHtml ext o = Except.ok
      (borderOpen ++ _code_format ext o.reprStr ++ divider
        ++ objDocSection (titleOf o) (getdoc o.rawDoc) ++ divider
        ++ kvTableStr (attrRows ext o)
        ++ (if kvTableStr (attrRows ext o) ≠ "" ∧ mt ≠ "" then divider else "")
        ++ mt ++ "</div>") := by
  unfold inspectHtml
  rw [hm]
  by_cases hc : kvTableStr (attrRows ext o) ≠ "" ∧ mt ≠ ""
  · simp only [if_pos hc]
  · simp only [if_neg hc]
    simp [String.append_assoc, String.append_empty]

/-- Unfolding step of the method loop: an underscore name is skipped. -/
theorem methodsTextGo_cons_underscore (ext : PyExt) (o : PyObj) (b : String)
    (rest : List String) (hb : pyStartsWith b "_" = true) :
    methodsTextGo ext o (b :: rest) = methodsTextGo ext o rest := by
  conv_lhs => unfold methodsTextGo
  rw [if_pos hb]

/-- Unfolding step of the method loop: a public name whose `getattr` raises
propagates the exception. -/
theorem methodsTextGo_cons_err (ext : PyExt) (o : PyObj) (b : String)
    (rest : List String) (hb : pyStartsWith b "_" = false)
    (hg : o.getattrRes b = Except.error ()) :
    methodsTextGo ext o (b :: rest) = Except.error () := by
  conv_lhs => unfold methodsTextGo
  rw [if_neg (by simp [hb]), hg]

/-- Unfolding step of the method loop: a public name whose `getattr` succeeds
contributes an entry when callable and is skipped otherwise. -/
theorem methodsTextGo_cons_ok (ext : PyExt) (o : PyObj) (b : String)
    (rest : List String) (v : PyValue) (hb : pyStartsWith b "_" = false)
    (hg : o.getattrRes b = Except.ok v) :
    methodsTextGo ext o (b :: rest) =
      (if v.callable = true then
        (do
          let entry ← methodEntry ext b v
          let restText ← methodsTextGo ext o rest
          pure (entry ++ restText))
      else methodsTextGo ext o rest) := by
  conv_lhs => unfold methodsTextGo
  rw [if_neg (by simp [hb]), hg]

/-- If some public name in `names` has a raising `getattr`, the method loop
raises. -/
theorem methodsTextGo_error (ext : PyExt) (o : PyObj) :
    ∀ names : List String,
      (∃ a ∈ names, pyStartsWith a "_" = false ∧ o.getattrRes a = Except.error ()) →
      methodsTextGo ext o names = Except.error () := by
  intro names
  induction names with
  | nil =>
    rintro ⟨a, ha, -, -⟩
    exact absurd ha (List.not_mem_nil a)
  | cons b rest ih =>
    rintro ⟨a, ha, h2, h3⟩
    rw [List.mem_cons] at ha
    by_cases hb : pyStartsWith b "_" = true
    · rw [methodsTextGo_cons_underscore ext o b rest hb]
      rcases ha with rfl | ha
      · rw [h2] at hb
        cases hb
      · exact ih ⟨a, ha, h2, h3⟩
    · rw [Bool.not_eq_true] at hb
      cases hg : o.getattrRes b with
      | error e =>
        cases e
        exact methodsTextGo_cons_err ext o b rest hb hg
      | ok v =>
        have ha' : a ∈ rest := by
          rcases ha with rfl | ha
          · rw [h3] at hg
            cases hg
          · exact ha
        have hrest := ih ⟨a, ha', h2, h3⟩
        rw [methodsTextGo_cons_ok ext o b rest v hb hg]
        by_cases hc : v.callable = true
        · rw [if_pos hc]
          cases he : methodEntry ext b v with
          | error e =>
            cases e
            rfl
          | ok entry =>
            rw [hrest]
            rfl
        · rw [if_neg hc]
          exact hrest

/-- Unfolding step of the method-items loop: an underscore name is skipped. -/
theorem methodItemsGo_cons_underscore (o : PyObj) (b : String)
    (rest : List String) (hb : pyStartsWith b "_" = true) :
    methodItemsGo o (b :: rest) = methodItemsGo o rest := by
  conv_lhs => unfold methodItemsGo
  rw [if_pos hb]

/-- Unfolding step of the method-items loop: a public raising name propagates
the exception. -/
theorem methodItemsGo_cons_err (o : PyObj) (b : String)
    (rest : List String) (hb : pyStartsWith b "_" = false)
    (hg : o.getattrRes b = Except.error ()) :
    methodItemsGo o (b :: rest) = Except.error () := by
  conv_lhs => unfold methodItemsGo
  rw [if_neg (by simp [hb]), hg]

/-- Unfolding step of the method-items loop: a public resolving name is listed
when callable and skipped otherwise. -/
theorem methodItemsGo_cons_ok (o : PyObj) (b : String)
    (rest : List String) (v : PyValue) (hb : pyStartsWith b "_" = false)
    (hg : o.getattrRes b = Except.ok v) :
    methodItemsGo o (b :: rest) =
      (if v.callable = true then
        (do
          let restItems ← methodItemsGo o rest
          pure ((b, v) :: restItems))
      else methodItemsGo o rest) := by
  conv_lhs => unfold methodItemsGo
  rw [if_neg (by simp [hb]), hg]

/-- Characterisation of the names in the method list: under a successful
method loop, a name is listed exactly when it is a public name of `dir(obj)`
whose value is callable. -/
theorem methodItemsGo_names (o : PyObj) (a : String) :
    ∀ (names : List String) (l : List (String × PyValue)),
      methodItemsGo o names = Except.ok l →
      ((a ∈ l.map Prod.fst) ↔
        (a ∈ names ∧ pyStartsWith a "_" = false ∧ (attrValue o a).callable = true)) := by
  intro names
  induction names with
  | nil =>
    intro l h
    unfold methodItemsGo at h
    cases h
    simp
  | cons b rest ih =>
    intro l h
    by_cases hb : pyStartsWith b "_" = true
    · rw [methodItemsGo_cons_underscore o b rest hb] at h
      rw [ih l h]
      constructor
      · rintro ⟨h1, h2, h3⟩
        exact ⟨List.mem_cons_of_mem b h1, h2, h3⟩
      · rintro ⟨h1, h2, h3⟩
        rw [List.mem_cons] at h1
        rcases h1 with rfl | h1
        · rw [h2] at hb
          cases hb
        · exact ⟨h1, h2, h3⟩
    · rw [Bool.not_eq_true] at hb
      cases hg : o.getattrRes b with
      | error e =>
        cases e
        rw [methodItemsGo_cons_err o b rest hb hg] at h
        cases h
      | ok v =>
        rw [methodItemsGo_cons_ok o b rest v hb hg] at h
        by_cases hc : v.callable = true
        · rw [if_pos hc] at h
          cases hr : methodItemsGo o rest with
          | error e =>
            rw [hr] at h
            cases h
          | ok restItems =>
            rw [hr] at h
            have hl : l = (b, v) :: restItems := by
              cases h
              rfl
            subst hl
            rw [List.map_cons, List.mem_cons]
            rw [ih restItems hr]
            constructor
            · rintro (h0 | ⟨h1, h2, h3⟩)
              · have h0' : a = b := h0
                rw [h0']
                refine ⟨List.mem_cons_self b rest, hb, ?_⟩
                unfold attrValue
                rw [hg]
                exact hc
              · exact ⟨List.mem_cons_of_mem b h1, h2, h3⟩
            · rintro ⟨h1, h2, h3⟩
              rw [List.mem_cons] at h1
              rcases h1 with rfl | h1
              · exact Or.inl rfl
              · exact Or.inr ⟨h1, h2, h3⟩
        · rw [if_neg hc] at h
          rw [ih l h]
          constructor
          · rintro ⟨h1, h2, h3⟩
            exact ⟨List.mem_cons_of_mem b h1, h2, h3⟩
          · rintro ⟨h1, h2, h3⟩
            rw [List.mem_cons] at h1
            rcases h1 with rfl | h1
            · exfalso
              unfold attrValue at h3
              rw [hg] at h3
              rw [h3] at hc
              exact hc rfl
            · exact ⟨h1, h2, h3⟩

/-- Characterisation of the names in the attribute table: a name is listed
exactly when it is a public name of `dir(obj)` whose (placeholder-substituted)
value is not callable. -/
theorem attrTableItems_names (o : PyObj) (a : String) :
    (a ∈ (attrTableItems o).map Prod.fst) ↔
      (a ∈ o.dirList ∧ pyStartsWith a "_" = false ∧ (attrValue o a).callable = false) := by
  unfold attrTableItems
  rw [List.mem_map]
  constructor
  · rintro ⟨p, hp, rfl⟩
    rw [List.mem_filterMap] at hp
    obtain ⟨b, hb, heq⟩ := hp
    by_cases hcond : (!pyStartsWith b "_" && !(attrValue o b).callable) = true
    · rw [if_pos hcond] at heq
      cases heq
      rw [Bool.and_eq_true, Bool.not_eq_true', Bool.not_eq_true'] at hcond
      exact ⟨hb, hcond.1, hcond.2⟩
    · rw [if_neg hcond] at heq
      cases heq
  · rintro ⟨h1, h2, h3⟩
    refine ⟨(a, attrValue o a), ?_, rfl⟩
    rw [List.mem_filterMap]
    refine ⟨a, h1, ?_⟩
    have hcond : (!pyStartsWith a "_" && !(attrValue o a).callable) = true := by
      rw [Bool.and_eq_true, Bool.not_eq_true', Bool.not_eq_true']
      exact ⟨h2, h3⟩
    rw [if_pos hcond]

/-- `wrap_expander` output is a collapsible element: it begins with
`<details>`. -/
theorem wrap_expander_beginsWith (a b : String) (i : Bool) :
    strBeginsWith (wrap_expander a b i) "<details>" := by
  unfold strBeginsWith wrap_expander
  simp only [String.data_append]
  rw [show (['<', 'd', 'e', 't', 'a', 'i', 'l', 's', '>', '<', 's', 'u', 'm', 'm', 'a', 'r', 'y', '>'] : List Char)
      = ['<', 'd', 'e', 't', 'a', 'i', 'l', 's', '>'] ++ ['<', 's', 'u', 'm', 'm', 'a', 'r', 'y', '>'] from rfl]
  simp only [List.append_assoc]
  exact List.prefix_append _ _

/-- A fragment that begins with `<b>` is not a collapsible element. -/
theorem bold_not_beginsWith_details (x : String) :
    ¬ strBeginsWith ("<b>" ++ x) "<details>" := by
  rintro ⟨t, ht⟩
  rw [String.data_append] at ht
  rw [show ("<details>" : String).data
      = '<' :: 'd' :: 'e' :: 't' :: 'a' :: 'i' :: 'l' :: 's' :: '>' :: [] from rfl] at ht
  rw [show ("<b>" : String).data = '<' :: 'b' :: '>' :: [] from rfl] at ht
  simp only [List.cons_append, List.nil_append] at ht
  injection ht with e1 h2
  injection h2 with e2 h3
  exact absurd e2 (by decide)

/-- The type span is never the empty string. -/
theorem typeSpan_ne_empty (t : String) : typeSpan t ≠ "" := by
  intro h
  unfold typeSpan at h
  have hl := congrArg String.length h
  rw [String.length_append, String.length_append] at hl
  have hc : 0 < ("<span style=\"color: #01a9aa\">" : String).length := by decide
  have h0 : ("" : String).length = 0 := rfl
  rw [h0] at hl
  omega

/-! ### The claims -/

set_option maxRecDepth 8192 in
/-- C1 (counterexample): `oBad` has the public attribute `boom` whose access
raises; `inspect` itself raises (the method-list loop calls `getattr`
unguarded at line 291), so the exception is *not* caught in both enumerations
and `inspect` does raise. -/
theorem c1_counterexample :
    oBad.dirList = ["boom"] ∧ oBad.getattrRes "boom" = Except.error () ∧
    pyStartsWith "boom" "_" = false ∧
    inspectHtml exampleExt oBad = Except.error () ∧
    inspectRun exampleExt oBad [] = (Except.error (), []) :=
  ⟨rfl, rfl, by decide, rfl, rfl⟩

/-- C1 (amended): an attribute-access exception is caught and replaced by the
placeholder string only in the attribute-table enumeration; in the method-list
enumeration the `getattr` on a public name is unguarded, so the exception
propagates out of `inspect`. -/
theorem c1_thm (ext : PyExt) (o : PyObj) (a : String)
    (h1 : a ∈ o.dirList) (h2 : pyStartsWith a "_" = false)
    (h3 : o.getattrRes a = Except.error ()) :
    (a, placeholderValue) ∈ attrTableItems o ∧
    methodsText ext o = Except.error () ∧
    inspectHtml ext o = Except.error () := by
  have hm : methodsText ext o = Except.error () :=
    methodsTextGo_error ext o o.dirList ⟨a, h1, h2, h3⟩
  refine ⟨?_, hm, ?_⟩
  · have hv : attrValue o a = placeholderValue := by
      unfold attrValue
      rw [h3]
    unfold attrTableItems
    rw [List.mem_filterMap]
    exact ⟨a, h1, by simp [hv, h2, placeholderValue]⟩
  · unfold inspectHtml
    rw [hm]

/-- C1 (witness): the amended statement evaluated on `oBad`. -/
theorem c1_witness :
    ("boom", placeholderValue) ∈ attrTableItems oBad ∧
    methodsText exampleExt oBad = Except.error () ∧
    inspectHtml exampleExt oBad = Except.error () :=
  c1_thm exampleExt oBad "boom" (by decide) (by decide) rfl

/-- C2: a name from `dir(obj)` is listed in the attribute table iff it is
public and its (loop-bound) value is not callable, and — whenever the method
loop completes — in the method list iff it is public and its value is
callable. -/
theorem c2_thm (o : PyObj) (a : String) :
    ((a ∈ (attrTableItems o).map Prod.fst) ↔
      (a ∈ o.dirList ∧ pyStartsWith a "_" = false ∧ (attrValue o a).callable = false))
  ∧ (∀ l, methodItems o = Except.ok l →
      ((a ∈ l.map Prod.fst) ↔
        (a ∈ o.dirList ∧ pyStartsWith a "_" = false ∧ (attrValue o a).callable = true))) :=
  ⟨attrTableItems_names o a, fun l h => methodItemsGo_names o a o.dirList l h⟩

/-- C2 (witness): on `oGood`, the non-callable `size` lands in the attribute
table and the callable `run` in the method list. -/
theorem c2_witness :
    ("size" ∈ (attrTableItems oGood).map Prod.fst) ∧
    ("run" ∈ ([("run", vFun)] : List (String × PyValue)).map Prod.fst) :=
  ⟨(c2_thm oGood "size").1.mpr ⟨by decide, by decide, by decide⟩,
   ((c2_thm oGood "run").2 [("run", vFun)] rfl).mpr ⟨by decide, by decide, by decide⟩⟩

/-- C3 (counterexample): for the docstring `"\n   \n\nx"` (found by `getdoc`
as `"   \n\nx"`), the split yields an empty first paragraph and the non-empty
remainder `"x"`, yet the rendered section is just the bold title `<b>T</b>` —
no collapsible section is produced despite the non-empty remainder. -/
theorem c3_counterexample :
    getdoc oDoc.rawDoc = some "   \n\nx" ∧
    (_split_format_docstring "   \n\nx").1 = "" ∧
    (_split_format_docstring "   \n\nx").2 = "x" ∧
    objDocSection (titleOf oDoc) (getdoc oDoc.rawDoc) = "<b>T</b>" :=
  ⟨rfl, by decide, by decide, by decide⟩

/-- Reduction of the object docstring section on a present docstring. -/
theorem objDocSection_some (title doc : String) :
    objDocSection title (some doc) =
      (if (_split_format_docstring doc).1 ≠ "" ∧ (_split_format_docstring doc).2 ≠ "" then
        wrap_expander
          ("<b>" ++ title ++ ":</b> " ++ grayClassSpan (_split_format_docstring doc).1)
          (grayClassSpan (_split_format_docstring doc).2)
      else if (_split_format_docstring doc).1 ≠ "" then
        "<b>" ++ title ++ ":</b> " ++ grayClassSpan (_split_format_docstring doc).1
      else "<b>" ++ title ++ "</b>") := rfl

/-- Reduction of a method entry on a present docstring. -/
theorem methodEntry_somedoc (ext : PyExt) (name : String) (v : PyValue) (doc : String)
    (hd : getdoc v.rawDoc = some doc) :
    methodEntry ext name v =
      (do
        let value_text ←
          (if (_split_format_docstring doc).1 ≠ "" ∧ (_split_format_docstring doc).2 ≠ "" then do
            let t ← forceStr (_get_signature name v)
            pure (wrap_expander
              (_code_format ext (t ++ ":") ++ grayStyleSpan (_split_format_docstring doc).1)
              (grayStyleSpan (_split_format_docstring doc).2) true)
          else if (_split_format_docstring doc).1 ≠ "" then do
            let t ← forceStr (_get_signature name v)
            pure (_code_format ext (t ++ ":") ++ grayStyleSpan (_split_format_docstring doc).1)
          else do
            let t ← forceStr (_get_signature name v)
            pure (_code_format ext t))
        pure ("<div>" ++ value_text ++ "</div>")) := by
  unfold methodEntry
  rw [hd]

/-- C3 (amended): every rendered docstring is split at the first blank line
into first paragraph and remainder (both cleaned and stripped); a collapsible
(`<details>`) section is produced exactly when *both* parts are non-empty; a
non-collapsible summary is produced exactly when the first paragraph is
non-empty and the remainder empty; when the first paragraph is empty — even
with a non-empty remainder — only the bold title (for the object), resp. only
the formatted signature (for a method), is rendered. -/
theorem c3_thm (ext : PyExt) (title doc name : String) (v : PyValue) (st : String) :
    (strBeginsWith (objDocSection title (some doc)) "<details>" ↔
      ((_split_format_docstring doc).1 ≠ "" ∧ (_split_format_docstring doc).2 ≠ ""))
  ∧ ((_split_format_docstring doc).1 ≠ "" → (_split_format_docstring doc).2 = "" →
      objDocSection title (some doc) =
        "<b>" ++ title ++ ":</b> " ++ grayClassSpan (_split_format_docstring doc).1)
  ∧ ((_split_format_docstring doc).1 = "" →
      objDocSection title (some doc) = "<b>" ++ title ++ "</b>")
  ∧ (getdoc v.rawDoc = some doc → _get_signature name v = some st →
      ((_split_format_docstring doc).1 ≠ "" → (_split_format_docstring doc).2 ≠ "" →
        methodEntry ext name v = Except.ok ("<div>" ++
          wrap_expander
            (_code_format ext (st ++ ":") ++ grayStyleSpan (_split_format_docstring doc).1)
            (grayStyleSpan (_split_format_docstring doc).2) true ++ "</div>"))
      ∧ ((_split_format_docstring doc).1 ≠ "" → (_split_format_docstring doc).2 = "" →
        methodEntry ext name v = Except.ok ("<div>" ++
          _code_format ext (st ++ ":") ++ grayStyleSpan (_split_format_docstring doc).1
          ++ "</div>"))
      ∧ ((_split_format_docstring doc).1 = "" →
        methodEntry ext name v = Except.ok ("<div>" ++ _code_format ext st ++ "</div>"))) := by
  refine ⟨?_, ?_, ?_, ?_⟩
  · rw [objDocSection_some]
    constructor
    · intro hb
      by_cases h1 : (_split_format_docstring doc).1 ≠ "" ∧ (_split_format_docstring doc).2 ≠ ""
      · exact h1
      · exfalso
        rw [if_neg h1] at hb
        by_cases h2 : (_split_format_docstring doc).1 ≠ ""
        · rw [if_pos h2] at hb
          exact bold_not_beginsWith_details _ hb
        · rw [if_neg h2] at hb
          exact bold_not_beginsWith_details _ hb
    · intro h1
      rw [if_pos h1]
      exact wrap_expander_beginsWith _ _ _
  · intro h1 h2
    rw [objDocSection_some]
    rw [if_neg (by intro hx; exact absurd h2 (by simpa using hx.2)), if_pos h1]
  · intro h1
    rw [objDocSection_some]
    rw [if_neg (by intro hx; exact absurd h1 (by simpa using hx.1))]
    rw [if_neg (by simpa using h1)]
  · intro hd hs
    refine ⟨?_, ?_, ?_⟩
    · intro h1 h2
      rw [methodEntry_somedoc ext name v doc hd]
      rw [if_pos ⟨h1, h2⟩, hs]
      rfl
    · intro h1 h2
      rw [methodEntry_somedoc ext name v doc hd]
      rw [if_neg (by intro hx; exact absurd h2 (by simpa using hx.2)), if_pos h1, hs]
      rfl
    · intro h1
      rw [methodEntry_somedoc ext name v doc hd]
      rw [if_neg (by intro hx; exact absurd h1 (by simpa using hx.1))]
      rw [if_neg (by simpa using h1), hs]
      rfl

/-- C3 (witness): a two-paragraph docstring yields a collapsible section for
the object title and for the method `m` of `vDoc`. -/
theorem c3_witness :
    strBeginsWith (objDocSection "T" (some "A\n\nB")) "<details>" ∧
    methodEntry exampleExt "m" vDoc =
      Except.ok ("<div>" ++
        wrap_expander (_code_format exampleExt ("def m(x)" ++ ":") ++ grayStyleSpan "A")
          (grayStyleSpan "B") true ++ "</div>") :=
  ⟨(c3_thm exampleExt "T" "A\n\nB" "m" vDoc "def m(x)").1.mpr ⟨by decide, by decide⟩,
   ((((c3_thm exampleExt "T" "A\n\nB" "m" vDoc "def m(x)").2.2.2
      (by decide) rfl).1 (by decide) (by decide)).trans (by rfl))⟩

/-- Reduction of `_prettify_value` on a string value. -/
theorem _prettify_value_str (ext : PyExt) (v : PyValue) (hstr : v.isStr = true) :
    _prettify_value ext v =
      (if ext.urlValid v.strv = true then
        pyReplace
          (_code_format ext
            (quoteCharFor (shorten v.strv) ++ shorten v.strv ++ quoteCharFor (shorten v.strv)))
          (shorten v.strv) (urlAnchor v.strv (shorten v.strv))
      else
        _code_format ext
          (quoteCharFor (shorten v.strv) ++ shorten v.strv ++ quoteCharFor (shorten v.strv))) := by
  unfold _prettify_value
  rw [hstr]
  rfl

/-- C4: for string values, a valid URL renders as the quoted, highlighted
string with every occurrence of the (shortened) text replaced by an HTML
anchor whose `href` is the URL — in particular, whenever the highlighter
output contains the text, the rendering contains the anchor — while a
non-URL string renders as the quoted, highlighted string with no anchor
substitution. -/
theorem c4_thm (ext : PyExt) (v : PyValue) (hstr : v.isStr = true) :
    (ext.urlValid v.strv = true →
      _prettify_value ext v =
        pyReplace
          (_code_format ext
            (quoteCharFor (shorten v.strv) ++ shorten v.strv ++ quoteCharFor (shorten v.strv)))
          (shorten v.strv) (urlAnchor v.strv (shorten v.strv)))
  ∧ (ext.urlValid v.strv = false →
      _prettify_value ext v =
        _code_format ext
          (quoteCharFor (shorten v.strv) ++ shorten v.strv ++ quoteCharFor (shorten v.strv)))
  ∧ (∀ l r : String, ext.urlValid v.strv = true → shorten v.strv ≠ "" →
      _code_format ext
          (quoteCharFor (shorten v.strv) ++ shorten v.strv ++ quoteCharFor (shorten v.strv))
        = l ++ shorten v.strv ++ r →
      ∃ x y : String,
        _prettify_value ext v = x ++ urlAnchor v.strv (shorten v.strv) ++ y) := by
  have hmain := _prettify_value_str ext v hstr
  refine ⟨?_, ?_, ?_⟩
  · intro hu
    rw [hmain, if_pos hu]
  · intro hu
    rw [hmain, if_neg (by rw [hu]; exact Bool.false_ne_true)]
  · intro l r hu hne heq
    have heq' : _code_format ext
        (quoteCharFor (shorten v.strv) ++ shorten v.strv ++ quoteCharFor (shorten v.strv))
        = l ++ (shorten v.strv ++ r) := by
      rw [heq, String.append_assoc]
    obtain ⟨x, y, hxy⟩ :=
      pyReplace_surrounds _ (shorten v.strv) (urlAnchor v.strv (shorten v.strv)) l r hne heq'
    refine ⟨x, y, ?_⟩
    rw [hmain, if_pos hu, hxy, String.append_assoc]

set_option maxRecDepth 8192 in
/-- C4 (witness): the URL string renders with an anchor, the plain string as
quoted highlighted code. -/
theorem c4_witness :
    _prettify_value exampleExt vUrl = "\"<a href=\"https://x.de\">https://x.de</a>\"" ∧
    _prettify_value exampleExt vPlain = "\"hello\"" := by
  constructor
  · rw [(c4_thm exampleExt vUrl rfl).1 (by decide)]
    decide
  · rw [(c4_thm exampleExt vPlain rfl).2.1 (by decide)]
    decide

/-- C5: on the success path, the HTML written by `inspect` is exactly the
bordered block holding, in order: the highlighted repr, the title + split
docstring section, the attribute table and the method list, with dividers
after the repr and the docstring section and one between table and method
list when both are non-empty. -/
theorem c5_thm (ext : PyExt) (o : PyObj) (mt : String)
    (hm : methodsText ext o = Except.ok mt) :
    inspectHtml ext o = Except.ok
      (borderOpen ++ _code_format ext o.reprStr ++ divider
        ++ objDocSection (titleOf o) (getdoc o.rawDoc) ++ divider
        ++ kvTableStr (attrRows ext o)
        ++ (if kvTableStr (attrRows ext o) ≠ "" ∧ mt ≠ "" then divider else "")
        ++ mt ++ "</div>") :=
  inspectHtml_ok ext o mt hm

set_option maxRecDepth 8192 in
/-- C5 (witness): the equation evaluated on `oGood`. -/
theorem c5_witness :
    inspectHtml exampleExt oGood = Except.ok
      (borderOpen ++ _code_format exampleExt oGood.reprStr ++ divider
        ++ objDocSection (titleOf oGood) (getdoc oGood.rawDoc) ++ divider
        ++ kvTableStr (attrRows exampleExt oGood)
        ++ (if kvTableStr (attrRows exampleExt oGood) ≠ ""
              ∧ ("<div>def run(x)</div>" : String) ≠ "" then divider else "")
        ++ "<div>def run(x)</div>" ++ "</div>") :=
  c5_thm exampleExt oGood "<div>def run(x)</div>" rfl

/-- C7: `inspect` returns `()` (Python `None`); its only effect is appending
the one rendered HTML string to the page via the host framework's write call —
and when the rendering raises, the page is left unchanged. -/
theorem c7_thm (ext : PyExt) (o : PyObj) (page : List String) :
    (inspectRun ext o page).2 = page ∨
    ∃ h : String, inspectHtml ext o = Except.ok h ∧
      inspectRun ext o page = (Except.ok (), page ++ [h]) := by
  cases hi : inspectHtml ext o with
  | error e =>
    left
    unfold inspectRun
    rw [hi]
  | ok s =>
    right
    refine ⟨s, rfl, ?_⟩
    unfold inspectRun
    rw [hi]

set_option maxRecDepth 8192 in
/-- C6 (counterexample): on `oNone`, whose single public attribute holds
`None`, the rendered row key is the bare name `field` — the inferred type name
`NoneType` is not shown (line 277 sets `type_str` to the empty string for
`None`). -/
theorem c6_counterexample :
    attrTableItems oNone = [("field", vNone)] ∧
    vNone.isNone = true ∧ vNone.typeName = "NoneType" ∧
    rowKey "field" vNone = "field" ∧
    attrRows exampleExt oNone = [rowHtml "field" "None"] := by
  refine ⟨by decide, rfl, rfl, by decide, by decide⟩

/-- C6 (amended): each attribute-table row is the key/value `<tr>` built from
the pretty-printed value and a key holding the attribute name followed by the
type span of the inferred type name — except when the value is `None`, in
which case the key is the bare name and the type is omitted. -/
theorem c6_thm (ext : PyExt) (o : PyObj) (a : String) (v : PyValue) :
    attrRows ext o = (attrTableItems o).map
        (fun p => rowHtml (rowKey p.1 p.2) (_prettify_value ext p.2))
  ∧ (v.isNone = false → rowKey a v = a ++ ": " ++ typeSpan v.typeName)
  ∧ (v.isNone = true → rowKey a v = a) := by
  refine ⟨rfl, ?_, ?_⟩
  · intro h
    have h2 := typeSpan_ne_empty v.typeName
    simp [rowKey, h, h2]
  · intro h
    simp [rowKey, h]

/-- C6 (witness): the amended row-key shapes evaluated on `int` and `None`
values. -/
theorem c6_witness :
    rowKey "size" vInt = "size" ++ ": " ++ typeSpan "int" ∧
    rowKey "field" vNone = "field" :=
  ⟨(c6_thm exampleExt oGood "size" vInt).2.1 rfl,
   (c6_thm exampleExt oGood "field" vNone).2.2 rfl⟩

/-- C8: the attribute-table display string is `str(value)` with every newline
replaced by a space; when longer than 300 characters it is truncated to the
first 300 followed by `"..."`, otherwise shown unchanged — and non-string
values are rendered as exactly this shortened string, highlighted. -/
theorem c8_thm (s : String) :
    ((pyReplace s "\n" " ").length > 300 →
      shorten s = pyTake (pyReplace s "\n" " ") 300 ++ "...")
  ∧ ((pyReplace s "\n" " ").length ≤ 300 → shorten s = pyReplace s "\n" " ")
  ∧ (∀ (ext : PyExt) (v : PyValue), v.isStr = false →
      _prettify_value ext v = _code_format ext (shorten v.strv)) := by
  refine ⟨?_, ?_, ?_⟩
  · intro h
    show (if (pyReplace s "\n" " ").length > 300 then
        pyTake (pyReplace s "\n" " ") 300 ++ "..." else pyReplace s "\n" " ") = _
    rw [if_pos h]
  · intro h
    show (if (pyReplace s "\n" " ").length > 300 then
        pyTake (pyReplace s "\n" " ") 300 ++ "..." else pyReplace s "\n" " ") = _
    rw [if_neg (by omega)]
  · intro ext v hv
    unfold _prettify_value
    rw [hv]
    rfl

set_option maxRecDepth 8192 in
/-- C8 (witness): a 301-character string is truncated; a short string with a
newline is only newline-replaced. -/
theorem c8_witness :
    shorten (String.mk (List.replicate 301 'a')) =
      pyTake (pyReplace (String.mk (List.replicate 301 'a')) "\n" " ") 300 ++ "..." ∧
    shorten "ab\ncd" = "ab cd" :=
  ⟨(c8_thm (String.mk (List.replicate 301 'a'))).1 (by decide),
   ((c8_thm "ab\ncd").2.1 (by decide)).trans (by decide)⟩

/-- C9: `_get_signature` falls back to `"(...)"` on `ValueError`, prefixes
`class` for classes and `def` otherwise, and returns `None` on `TypeError`. -/
theorem c9_thm (name : String) (v : PyValue) :
    (v.sigOutcome = SigOutcome.valueError →
      _get_signature name v =
        some ((if v.isClass then "class" else "def") ++ " " ++ v.dunderName.getD name
          ++ "(...)"))
  ∧ (∀ sg, v.sigOutcome = SigOutcome.ok sg →
      _get_signature name v =
        some ((if v.isClass then "class" else "def") ++ " " ++ v.dunderName.getD name ++ sg))
  ∧ (v.sigOutcome = SigOutcome.typeError → _get_signature name v = none) := by
  refine ⟨?_, ?_, ?_⟩
  · intro h
    unfold _get_signature
    rw [h]
  · intro sg h
    unfold _get_signature
    rw [h]
  · intro h
    unfold _get_signature
    rw [h]

/-- C9 (witness): the three outcomes evaluated on concrete values. -/
theorem c9_witness :
    _get_signature "f" vSigVE = some "class Foo(...)" ∧
    _get_signature "g" vInt = none :=
  ⟨((c9_thm "f" vSigVE).1 rfl).trans (by decide),
   (c9_thm "g" vInt).2.2 rfl⟩

/-- C10: an empty attribute table contributes the empty string (no table
markup), and on the success path the divider between the attribute table and
the method list is emitted exactly when both are non-empty. -/
theorem c10_thm (ext : PyExt) (o : PyObj) (mt : String)
    (hm : methodsText ext o = Except.ok mt) :
    (∀ rows : List String, kvTableStr rows = "" ↔ rows = [])
  ∧ ((kvTableStr (attrRows ext o) = "" ∨ mt = "") →
      inspectHtml ext o = Except.ok
        (borderOpen ++ _code_format ext o.reprStr ++ divider
          ++ objDocSection (titleOf o) (getdoc o.rawDoc) ++ divider
          ++ kvTableStr (attrRows ext o) ++ mt ++ "</div>"))
  ∧ (kvTableStr (attrRows ext o) ≠ "" → mt ≠ "" →
      inspectHtml ext o = Except.ok
        (borderOpen ++ _code_format ext o.reprStr ++ divider
          ++ objDocSection (titleOf o) (getdoc o.rawDoc) ++ divider
          ++ kvTableStr (attrRows ext o) ++ divider ++ mt ++ "</div>")) := by
  refine ⟨kvTableStr_empty_iff, ?_, ?_⟩
  · intro hor
    have hc : ¬(kvTableStr (attrRows ext o) ≠ "" ∧ mt ≠ "") := by
      rcases hor with h | h
      · intro hx
        exact hx.1 h
      · intro hx
        exact hx.2 h
    rw [inspectHtml_ok ext o mt hm, if_neg hc, String.append_empty]
  · intro h1 h2
    rw [inspectHtml_ok ext o mt hm, if_pos ⟨h1, h2⟩]

set_option maxRecDepth 8192 in
/-- C10 (witness): `oNone` has no public callables, so no divider is placed
after the attribute table. -/
theorem c10_witness :
    inspectHtml exampleExt oNone = Except.ok
      (borderOpen ++ _code_format exampleExt oNone.reprStr ++ divider
        ++ objDocSection (titleOf oNone) (getdoc oNone.rawDoc) ++ divider
        ++ kvTableStr (attrRows exampleExt oNone) ++ "" ++ "</div>") :=
  (c10_thm exampleExt oNone "" rfl).2.1 (Or.inr rfl)
